import Mathlib

/-!
Verification development for the snowbridge stream-replicator core.

The Go sources embedded here:
  * pkg/target/kafka.go      — KafkaTarget (sync and async producer paths)
  * pkg/target/eventhub.go   — EventHubTarget (chunked whole-batch delivery)
  * internal/models/target_write_result.go — NewWriteResultWithTime
  * internal/source sqs source — SQSSource (Read / process / Stop)

Times and durations are modelled as `Int` (Go nanoseconds of `time.Time` /
`time.Duration`).  Errors are modelled as `Option String` / `Except String`
(`none` = Go `nil` error).  Payload bytes are modelled as `String`
(byte size = `String.length`).
-/

set_option maxHeartbeats 1000000

namespace Snowbridge

/-- Model of pkg/models Message: opaque payload, partition key, the two
pipeline timestamps, the optional one-shot acknowledgment callback (a nil-able
callback is modelled as `Option Nat`, the `Nat` being an opaque callback
identity) and the optional attached error set by `SetError`. -/
structure Message where
  Data : String
  PartitionKey : String
  TimeCreated : Int
  TimePulled : Int
  AckFunc : Option Nat
  Err : Option String
  deriving Repr, DecidableEq

/-- Model of pkg/models Message.SetError: attaches the delivery error to the
message (Go mutates the pointed-to message; here we return the updated copy). -/
def Message.SetError (m : Message) (e : String) : Message :=
  { m with Err := some e }

/-- Erase the attached error of a message.  Used to compare a message that a
write classified (and possibly tagged via `SetError`) with the message that
was submitted. -/
def Message.clearError (m : Message) : Message :=
  { m with Err := none }

namespace pkgmodels

/-- Modelled from the spec: pkg/models.TargetWriteResult is not under src/
(only its internal/models predecessor is).  Per §3 of the spec a
DeliveryResult carries the four classification counts
`{Sent, Failed, Oversized, Invalid}`; the model keeps the four message lists
(as the snowbridge result does) and derives each count as a length. -/
structure TargetWriteResult where
  Sent : List Message
  Failed : List Message
  Oversized : List Message
  Invalid : List Message
  deriving Repr, DecidableEq

/-- SentCount of a result: length of the Sent list. -/
def TargetWriteResult.SentCount (r : TargetWriteResult) : Nat := r.Sent.length

/-- FailedCount of a result: length of the Failed list. -/
def TargetWriteResult.FailedCount (r : TargetWriteResult) : Nat := r.Failed.length

/-- OversizedCount of a result: length of the Oversized list. -/
def TargetWriteResult.OversizedCount (r : TargetWriteResult) : Nat := r.Oversized.length

/-- InvalidCount of a result: length of the Invalid list. -/
def TargetWriteResult.InvalidCount (r : TargetWriteResult) : Nat := r.Invalid.length

/-- Modelled from the spec: Total is the sum of the four classification
counts (`Sent+Failed+Oversized+Invalid`). -/
def TargetWriteResult.Total (r : TargetWriteResult) : Nat :=
  r.SentCount + r.FailedCount + r.OversizedCount + r.InvalidCount

/-- Modelled from the spec: pkg/models.NewTargetWriteResult builds a result
from the four classified message lists (a Go `nil` slice is the empty list). -/
def NewTargetWriteResult (sent failed oversized invalid : List Message) :
    TargetWriteResult :=
  { Sent := sent, Failed := failed, Oversized := oversized, Invalid := invalid }

/-- Modelled from the spec: pkg/models.TargetWriteResult.Append merges two
delivery results; counts sum (§3 merge rule), i.e. the lists concatenate. -/
def TargetWriteResult.Append (r o : TargetWriteResult) : TargetWriteResult :=
  { Sent := r.Sent ++ o.Sent
    Failed := r.Failed ++ o.Failed
    Oversized := r.Oversized ++ o.Oversized
    Invalid := r.Invalid ++ o.Invalid }

/-- Modelled from the spec: pkg/models.FilterOversizedMessages splits a batch
into the messages whose byte size is within `maxMessageSize` (order
preserved) and the oversized rest; a message exactly at the limit is NOT
oversized (§4.1 inclusive boundary). -/
def FilterOversizedMessages (messages : List Message) (maxMessageSize : Nat) :
    List Message × List Message :=
  (messages.filter (fun m => m.Data.length ≤ maxMessageSize),
   messages.filter (fun m => ¬ m.Data.length ≤ maxMessageSize))

/-- One step of the greedy chunker: state is
(closed chunks, oversized, current open chunk, byte size of the open chunk). -/
def chunkStep (chunkMessageLimit messageByteLimit chunkByteLimit : Nat)
    (acc : List (List Message) × List Message × List Message × Nat)
    (m : Message) : List (List Message) × List Message × List Message × Nat :=
  let (closed, oversized, current, currentBytes) := acc
  let size := m.Data.length
  if messageByteLimit < size then
    (closed, oversized ++ [m], current, currentBytes)
  else if current ≠ [] ∧
      (chunkMessageLimit < current.length + 1 ∨ chunkByteLimit < currentBytes + size) then
    (closed ++ [current], oversized, [m], size)
  else
    (closed, oversized, current ++ [m], currentBytes + size)

/-- Modelled from the spec: pkg/models.GetChunkedMessages (§4.1).  Messages
over `messageByteLimit` are routed to `oversized`; the rest are packed
greedily in input order, a chunk closing before adding a message would push
it past `chunkMessageLimit` or `chunkByteLimit`; no chunk is ever empty. -/
def GetChunkedMessages (messages : List Message)
    (chunkMessageLimit messageByteLimit chunkByteLimit : Nat) :
    List (List Message) × List Message :=
  let st :=
    messages.foldl (chunkStep chunkMessageLimit messageByteLimit chunkByteLimit)
      ([], [], [], 0)
  (if st.2.2.1 = [] then st.1 else st.1 ++ [st.2.2.1], st.2.1)

end pkgmodels

namespace target

/-- Model of pkg/target/kafka.go KafkaConfig (the fields the embedded logic
consults; credential/TLS file paths stay as opaque strings). -/
structure KafkaConfig where
  Brokers : String
  TopicName : String
  TargetVersion : String
  MaxRetries : Int
  ByteLimit : Nat
  Compress : Bool
  WaitForAll : Bool
  Idempotent : Bool
  EnableSASL : Bool
  SASLUsername : String
  SASLPassword : String
  SASLAlgorithm : String
  CertFile : String
  KeyFile : String
  CaFile : String
  SkipVerifyTls : Bool
  ForceSync : Bool
  FlushFrequency : Int
  FlushMessages : Int
  FlushBytes : Int
  deriving Repr, DecidableEq

/-- Model of the sarama version machinery consumed by getKafkaVersion
(kafka.go lines 283-306).  sarama is an external library (out of scope per
§1), so its ParseKafkaVersion, SupportedVersions and DefaultVersion are
abstract parameters; a version is just its name. -/
structure SaramaVersions where
  ParseKafkaVersion : String → Option String
  SupportedVersions : List String
  DefaultVersion : String

/-- Model of kafka.go getKafkaVersion (lines 283-306): an empty
targetVersion yields the sarama default; otherwise the string must parse and
the parsed version must be one of the supported versions, else an error. -/
def getKafkaVersion (sv : SaramaVersions) (targetVersion : String) :
    Except String String :=
  if targetVersion ≠ "" then
    match sv.ParseKafkaVersion targetVersion with
    | none => Except.error ("unable to parse version " ++ targetVersion)
    | some parsedVersion =>
      if sv.SupportedVersions.contains parsedVersion then
        Except.ok parsedVersion
      else
        Except.error ("unsupported version " ++ parsedVersion ++
          ". select older, compatible version instead")
  else
    Except.ok sv.DefaultVersion

/-- Model of pkg/target/kafka.go KafkaTarget: which producer was wired
(exactly one of sync/async on the success path) plus the plain fields. -/
structure KafkaTarget where
  hasSyncProducer : Bool
  hasAsyncProducer : Bool
  topicName : String
  brokers : String
  messageByteLimit : Nat
  deriving Repr, DecidableEq

/-- Model of kafka.go NewKafkaTarget (lines 69-174).  External effects are
parameters: `tlsResult` models createTlsConfiguration (Except over an opaque
presence flag), `producerResult` models the sarama producer constructor.
Returns (target?, error?) mirroring the Go pair, plus a Bool recording
whether a sarama producer constructor was ever invoked. -/
def NewKafkaTarget (sv : SaramaVersions)
    (tlsResult : Except String Bool) (producerResult : Option String)
    (cfg : KafkaConfig) : Option KafkaTarget × Option String × Bool :=
  match getKafkaVersion sv cfg.TargetVersion with
  | Except.error e => (none, some e, false)
  | Except.ok _ =>
    if cfg.EnableSASL ∧
        cfg.SASLAlgorithm ≠ "sha512" ∧ cfg.SASLAlgorithm ≠ "sha256" ∧
        cfg.SASLAlgorithm ≠ "plaintext" then
      (none, some ("invalid SHA algorithm \x22" ++ cfg.SASLAlgorithm ++
        "\x22: can be either \x22sha256\x22 or \x22sha512\x22"), false)
    else
      match tlsResult with
      | Except.error e => (none, some e, false)
      | Except.ok _ =>
        (some { hasSyncProducer := cfg.ForceSync
                hasAsyncProducer := ¬ cfg.ForceSync
                topicName := cfg.TopicName
                brokers := cfg.Brokers
                messageByteLimit := cfg.ByteLimit },
         producerResult, true)

/-- Model of kafka.go SaramaResult: one outcome drained from the
asyncResults channel.  The Metadata of the producer message always carries
the originating pkg/models Message (kafka.go line 195), so `Msg` is that
message — the explicit correlation handle. -/
structure SaramaResult where
  Msg : Message
  Err : Option String
  deriving Repr, DecidableEq

/-- Accumulator of the two classification loops inside KafkaTarget.Write:
sent list, failed list, the multierror list, and the ack invocations
performed so far (each entry is a message whose AckFunc was called). -/
structure KafkaWriteState where
  sent : List Message
  failed : List Message
  errs : List String
  acks : List Message
  deriving Repr, DecidableEq

/-- One iteration of the async drain loop (kafka.go lines 199-215): classify
one drained SaramaResult, acking on success and tagging the message with the
error on failure. -/
def kafkaAsyncStep (st : KafkaWriteState) (r : SaramaResult) : KafkaWriteState :=
  match r.Err with
  | some e =>
    { st with errs := st.errs ++ [e]
              failed := st.failed ++ [r.Msg.SetError e] }
  | none =>
    { st with acks := st.acks ++ (if r.Msg.AckFunc.isSome then [r.Msg] else [])
              sent := st.sent ++ [r.Msg] }

/-- Outcome of one KafkaTarget.Write call on the async path: delivery
result, returned error, ack invocations, and how many results were drained
from the asyncResults channel. -/
structure KafkaAsyncOutcome where
  result : pkgmodels.TargetWriteResult
  err : Option String
  acks : List Message
  drained : Nat
  deriving Repr, DecidableEq

/-- Model of KafkaTarget.Write, async-producer branch (kafka.go lines
177-215 and 239-250).  `asyncResults` is the stream of outcomes the
asyncResults channel yields; the code submits every safe message and then
blocks to drain exactly `len(safeMessages)` results. -/
def kafkaWriteAsync (byteLimit : Nat) (asyncResults : List SaramaResult)
    (messages : List Message) : KafkaAsyncOutcome :=
  let safeMessages := (pkgmodels.FilterOversizedMessages messages byteLimit).1
  let oversized := (pkgmodels.FilterOversizedMessages messages byteLimit).2
  let drained := asyncResults.take safeMessages.length
  let st := drained.foldl kafkaAsyncStep ⟨[], [], [], []⟩
  { result := pkgmodels.NewTargetWriteResult st.sent st.failed oversized []
    err := if st.errs = [] then none
           else some ("Error writing messages to Kafka topic: " ++
             String.intercalate "; " st.errs)
    acks := st.acks
    drained := drained.length }

/-- One iteration of the sync send loop (kafka.go lines 217-234): the
per-message sarama SendMessage outcome is `sendOutcome msg`. -/
def kafkaSyncStep (sendOutcome : Message → Option String)
    (st : KafkaWriteState) (msg : Message) : KafkaWriteState :=
  match sendOutcome msg with
  | some e =>
    { st with errs := st.errs ++ [e]
              failed := st.failed ++ [msg.SetError e] }
  | none =>
    { st with acks := st.acks ++ (if msg.AckFunc.isSome then [msg] else [])
              sent := st.sent ++ [msg] }

/-- Model of KafkaTarget.Write, sync-producer branch (kafka.go lines
177-188, 216-234 and 239-250): result, returned error, ack invocations. -/
def kafkaWriteSync (byteLimit : Nat) (sendOutcome : Message → Option String)
    (messages : List Message) :
    pkgmodels.TargetWriteResult × Option String × List Message :=
  let safeMessages := (pkgmodels.FilterOversizedMessages messages byteLimit).1
  let oversized := (pkgmodels.FilterOversizedMessages messages byteLimit).2
  let st := safeMessages.foldl (kafkaSyncStep sendOutcome) ⟨[], [], [], []⟩
  (pkgmodels.NewTargetWriteResult st.sent st.failed oversized [],
   if st.errs = [] then none
   else some ("Error writing messages to Kafka topic: " ++
     String.intercalate "; " st.errs),
   st.acks)

/-- Model of pkg/target/eventhub.go EventHubTarget (the limit fields the
embedded write path consults; the Azure hub client is external). -/
structure EventHubTarget where
  eventHubNamespace : String
  eventHubName : String
  messageByteLimit : Nat
  chunkByteLimit : Nat
  chunkMessageLimit : Nat
  contextTimeoutInSeconds : Int
  batchByteLimit : Nat
  deriving Repr, DecidableEq

/-- Model of EventHubTarget.process (eventhub.go lines 120-161).
`sendBatchErr` is the outcome of the external `client.SendBatch` on this
chunk.  On error the whole chunk is reported Failed and the wrapped error is
returned; on success every message is acked and reported Sent.  The third
component lists the ack invocations. -/
def eventHubProcess (sendBatchErr : Option String) (messages : List Message) :
    pkgmodels.TargetWriteResult × Option String × List Message :=
  match sendBatchErr with
  | some e =>
    (pkgmodels.NewTargetWriteResult [] messages [] [],
     some ("Failed to send message batch to EventHub: " ++ e), [])
  | none =>
    (pkgmodels.NewTargetWriteResult messages [] [] [],
     none, messages.filter (fun m => m.AckFunc.isSome))

/-- One iteration of the per-chunk loop of EventHubTarget.Write
(eventhub.go lines 103-110): process one chunk, Append its delivery result,
collect its error (multierror.Append) and its ack invocations. -/
def eventHubWriteStep (sendOutcome : List Message → Option String)
    (acc : pkgmodels.TargetWriteResult × List String × List Message)
    (chunk : List Message) :
    pkgmodels.TargetWriteResult × List String × List Message :=
  let processed := eventHubProcess (sendOutcome chunk) chunk
  (acc.1.Append processed.1,
   acc.2.1 ++ (match processed.2.1 with | some e => [e] | none => []),
   acc.2.2 ++ processed.2.2)

/-- Model of EventHubTarget.Write (eventhub.go lines 87-118): chunk the
batch, process each chunk in order via `eventHubWriteStep`, Appending the
per-chunk results onto the initial result holding the oversized messages and
aggregating per-chunk errors into one combined error.  `sendOutcome` gives
the external SendBatch outcome per chunk.  Returns
(result, error?, ack invocations). -/
def eventHubWrite (eht : EventHubTarget) (sendOutcome : List Message → Option String)
    (messages : List Message) :
    pkgmodels.TargetWriteResult × Option String × List Message :=
  let chunks := (pkgmodels.GetChunkedMessages messages
    eht.chunkMessageLimit eht.messageByteLimit eht.chunkByteLimit).1
  let oversized := (pkgmodels.GetChunkedMessages messages
    eht.chunkMessageLimit eht.messageByteLimit eht.chunkByteLimit).2
  let writeResult0 : pkgmodels.TargetWriteResult :=
    { Sent := [], Failed := [], Oversized := oversized, Invalid := [] }
  let folded := chunks.foldl (eventHubWriteStep sendOutcome) (writeResult0, [], [])
  (folded.1,
   if folded.2.1 = [] then none
   else some ("Error writing messages to EventHub: " ++
     String.intercalate "; " folded.2.1),
   folded.2.2)

end target

namespace internalmodels

/-- Model of internal/models/target_write_result.go TargetWriteResult: the
sent/failed counts plus the six derived latency fields (Go time.Duration,
modelled as Int nanoseconds). -/
structure TargetWriteResult where
  Sent : Int
  Failed : Int
  MaxProcLatency : Int
  MinProcLatency : Int
  AvgProcLatency : Int
  MaxMsgLatency : Int
  MinMsgLatency : Int
  AvgMsgLatency : Int
  deriving Repr, DecidableEq

/-- Modelled from the spec: internal/common.GetAverageFromDuration is not
under src/; per §3 the Avg fields are the arithmetic mean of the per-message
latencies, over integral nanosecond durations (integer quotient). -/
def GetAverageFromDuration (sum : Int) (total : Int) : Int :=
  if 0 < total then sum / total else 0

/-- The max update of the latency loop (target_write_result.go lines 54-56
and 63-65): the stored maximum is replaced when the new latency is strictly
larger. -/
def maxU (stored latency : Int) : Int :=
  if stored < latency then latency else stored

/-- The min update of the latency loop (target_write_result.go lines 57-59
and 66-68): the stored minimum is replaced when the new latency is strictly
smaller OR when the stored minimum still holds the zero initial value. -/
def minU (stored latency : Int) : Int :=
  if latency < stored ∨ stored = 0 then latency else stored

/-- One iteration of the latency loop of NewWriteResultWithTime
(target_write_result.go lines 52-70): apply the max update, the min update
(each conditional assignment reads only the field it assigns, so the four
sequential updates are the four independent field updates below), and
accumulate the two sums.  The accumulator is
(result so far, sumProcLatency, sumMessageLatency). -/
def writeResultStep (timeOfWrite : Int)
    (acc : TargetWriteResult × Int × Int) (msg : Message) :
    TargetWriteResult × Int × Int :=
  let r := acc.1
  let procLatency := timeOfWrite - msg.TimePulled
  let messageLatency := timeOfWrite - msg.TimeCreated
  ({ r with MaxProcLatency := maxU r.MaxProcLatency procLatency
            MinProcLatency := minU r.MinProcLatency procLatency
            MaxMsgLatency := maxU r.MaxMsgLatency messageLatency
            MinMsgLatency := minU r.MinMsgLatency messageLatency },
   acc.2.1 + procLatency, acc.2.2 + messageLatency)

/-- Model of internal/models NewWriteResultWithTime (target_write_result.go
lines 41-78): start from zeroed latency fields, run the latency loop over
the messages, then fill the Avg fields when the message list is non-empty. -/
def NewWriteResultWithTime (sent failed : Int) (timeOfWrite : Int)
    (messages : List Message) : TargetWriteResult :=
  let init : TargetWriteResult :=
    { Sent := sent, Failed := failed
      MaxProcLatency := 0, MinProcLatency := 0, AvgProcLatency := 0
      MaxMsgLatency := 0, MinMsgLatency := 0, AvgMsgLatency := 0 }
  let st := messages.foldl (writeResultStep timeOfWrite) (init, 0, 0)
  if 0 < messages.length then
    { st.1 with AvgProcLatency := GetAverageFromDuration st.2.1 messages.length
                AvgMsgLatency := GetAverageFromDuration st.2.2 messages.length }
  else
    st.1

end internalmodels

namespace source

/-- Model of an AWS SQS message as consumed by the source: body, receipt
handle, and the system attribute map (association list). -/
structure SQSMessage where
  Body : String
  ReceiptHandle : String
  Attributes : List (String × String)
  deriving Repr, DecidableEq

/-- The sqs.MessageSystemAttributeNameSentTimestamp constant. -/
def MessageSystemAttributeNameSentTimestamp : String := "SentTimestamp"

/-- Attribute-map lookup (Go map indexing `msg.Attributes[key]` with the
comma-ok form). -/
def lookupAttribute (attrs : List (String × String)) (key : String) :
    Option String :=
  (attrs.find? (fun kv => kv.1 = key)).map (fun kv => kv.2)

/-- Model of Go strconv.ParseInt(s, 10, 64): optional single leading sign,
then one or more decimal digits, value within the signed 64-bit range;
anything else is a parse error (`none`). -/
def parseInt64 (s : String) : Option Int :=
  let chars := s.data
  let (neg, digits) :=
    match chars with
    | [] => (false, ([] : List Char))
    | c :: rest =>
      if c = '-' then (true, rest)
      else if c = '+' then (false, rest)
      else (false, chars)
  if digits = [] then none
  else if digits.all (fun d => '0' ≤ d ∧ d ≤ '9') then
    let magnitude : Nat := digits.foldl (fun a d => a * 10 + (d.toNat - 48)) 0
    let value : Int := if neg then -(magnitude : Int) else (magnitude : Int)
    if -(2 ^ 63) ≤ value ∧ value ≤ 2 ^ 63 - 1 then some value else none
  else none

/-- Model of the timeCreated computation of SQSSource.process (source file
lines 138-153): parse the SentTimestamp attribute as epoch milliseconds; when
the attribute is absent or fails to parse, fall back to timePulled (the
error, if any, is only logged). -/
def sqsTimeCreated (timePulled : Int) (attrs : List (String × String)) : Int :=
  match lookupAttribute attrs MessageSystemAttributeNameSentTimestamp with
  | some timeCreatedStr =>
    match parseInt64 timeCreatedStr with
    | some timeCreatedMillis => timeCreatedMillis * 1000000
    | none => timePulled
  | none => timePulled

/-- Model of the message-construction loop of SQSSource.process (source file
lines 122-162): every received SQS message becomes exactly one pipeline
Message; `uuidGen` models uuid.NewV4 per position and the AckFunc identity
is the position of the message in the batch. -/
def sqsBuildMessages (uuidGen : Nat → String) (timePulled : Int)
    (msgs : List SQSMessage) : List Message :=
  (List.range msgs.length).zip msgs |>.map (fun im =>
    { Data := im.2.Body
      PartitionKey := uuidGen im.1
      TimeCreated := sqsTimeCreated timePulled im.2.Attributes
      TimePulled := timePulled
      AckFunc := some im.1
      Err := none })

/-- Model of SQSSource.process (source file lines 104-169).
`receiveResult` is the outcome of the external sqs ReceiveMessage call; a
receive error is wrapped and returned (line 117-119).  On a successful
receive, the messages are built and handed to `writeToTarget`
(sf.WriteToTarget, line 164); a write error is logged and DROPPED — both
branches of line 165-168 make process return nil. -/
def process (receiveResult : Except String (List SQSMessage))
    (uuidGen : Nat → String) (timePulled : Int)
    (writeToTarget : List Message → Option String) : Option String :=
  match receiveResult with
  | Except.error e => some ("Failed to get message from SQS queue: " ++ e)
  | Except.ok sqsMsgs =>
    match writeToTarget (sqsBuildMessages uuidGen timePulled sqsMsgs) with
    | some _ => none
    | none => none

/-- Model of the SQSSource channel layout: the struct keeps the slot count
and the capacities of its two channels. -/
structure SQSSource where
  queueName : String
  region : String
  concurrentWrites : Nat
  exitSignalCapacity : Nat
  processErrorSignalCapacity : Nat
  deriving Repr, DecidableEq

/-- Model of NewSQSSourceWithInterfaces (source file lines 51-60):
exitSignal is an UNBUFFERED channel (capacity 0, line 57) and
processErrorSignal is buffered to concurrentWrites (line 58). -/
def NewSQSSourceWithInterfaces (concurrentWrites : Nat)
    (region queueName : String) : SQSSource :=
  { queueName := queueName
    region := region
    concurrentWrites := concurrentWrites
    exitSignalCapacity := 0
    processErrorSignalCapacity := concurrentWrites }

/-- Go channel-send semantics: a send completes immediately iff a receiver
is currently blocked on the channel (rendezvous) or the buffer has room;
otherwise the sender blocks. -/
def chanSendCompletes (capacity queued : Nat) (receiverWaiting : Bool) : Bool :=
  receiverWaiting || decide (queued < capacity)

/-- Model of SQSSource.Stop (source file lines 172-175): one blocking send
on the exitSignal channel.  `readLoopSelecting` says whether a Read loop is
currently at its select, ready to receive the exit signal; the exitSignal
buffer is empty at that point. -/
def stopCompletes (ss : SQSSource) (readLoopSelecting : Bool) : Bool :=
  chanSendCompletes ss.exitSignalCapacity 0 readLoopSelecting

/-- Terminal-error abstraction of the Read loop (source file lines 79-101):
the loop launches one fetch-and-deliver cycle at a time and breaks on the
first error a cycle posted to processErrorSignal, joins (wg.Wait) and
returns that error; it returns nil when the cycles end without a posted
error (exit signal). -/
def readTerminal (cycleResults : List (Option String)) : Option String :=
  match cycleResults with
  | [] => none
  | some e :: _ => some e
  | none :: rest => readTerminal rest

/-- Model of SQSSource.Read composed with process: each element of `cycles`
is one worker cycle (its external receive outcome and its write-to-target
outcome); Read returns the first error any cycle's process returned. -/
def ReadModel (uuidGen : Nat → String) (timePulled : Int)
    (cycles : List (Except String (List SQSMessage) × (List Message → Option String))) :
    Option String :=
  readTerminal (cycles.map (fun c => process c.1 uuidGen timePulled c.2))

/-- The capacity of the throttle channel created by Read (source file line
74): the source's concurrentWrites. -/
def readThrottleCapacity (ss : SQSSource) : Nat := ss.concurrentWrites

/-- Events of the slot discipline of Read (source file lines 87-96): a
launch acquires a slot by sending into the throttle channel before the
worker starts; a completion releases it by receiving from the channel. -/
inductive SlotEvent where
  | launch
  | complete
  deriving Repr, DecidableEq

/-- Run the slot discipline: `inFlight` counts the tokens currently in the
throttle channel (= in-flight workers).  A launch into a full throttle
channel blocks (`none`); a completion with no in-flight worker cannot
occur (`none`). -/
def runSlots (capacity : Nat) : List SlotEvent → Nat → Option Nat
  | [], inFlight => some inFlight
  | SlotEvent.launch :: evs, inFlight =>
    if inFlight < capacity then runSlots capacity evs (inFlight + 1) else none
  | SlotEvent.complete :: evs, inFlight =>
    match inFlight with
    | 0 => none
    | m + 1 => runSlots capacity evs m

end source

/-! Helper lemmas. -/

theorem filterOversized_length (messages : List Message) (n : Nat) :
    (pkgmodels.FilterOversizedMessages messages n).1.length +
      (pkgmodels.FilterOversizedMessages messages n).2.length = messages.length := by
  induction messages with
  | nil => rfl
  | cons m ms ih =>
    simp only [pkgmodels.FilterOversizedMessages, List.filter_cons] at ih ⊢
    by_cases h : m.Data.length ≤ n <;> simp [h, Nat.not_le] at ih ⊢ <;> omega

theorem kafkaSyncStep_counts (sendOutcome : Message → Option String)
    (st : target.KafkaWriteState) (msg : Message) :
    (target.kafkaSyncStep sendOutcome st msg).sent.length +
      (target.kafkaSyncStep sendOutcome st msg).failed.length =
      st.sent.length + st.failed.length + 1 := by
  unfold target.kafkaSyncStep
  cases sendOutcome msg <;> (simp; omega)

theorem kafkaSyncFold_counts (sendOutcome : Message → Option String)
    (msgs : List Message) (st : target.KafkaWriteState) :
    (msgs.foldl (target.kafkaSyncStep sendOutcome) st).sent.length +
      (msgs.foldl (target.kafkaSyncStep sendOutcome) st).failed.length =
      st.sent.length + st.failed.length + msgs.length := by
  induction msgs generalizing st with
  | nil => simp
  | cons m ms ih =>
    simp only [List.foldl_cons, ih, kafkaSyncStep_counts, List.length_cons]
    omega

theorem kafkaAsyncStep_counts (st : target.KafkaWriteState)
    (r : target.SaramaResult) :
    (target.kafkaAsyncStep st r).sent.length +
      (target.kafkaAsyncStep st r).failed.length =
      st.sent.length + st.failed.length + 1 := by
  unfold target.kafkaAsyncStep
  cases r.Err <;> (simp; omega)

theorem kafkaAsyncFold_counts (results : List target.SaramaResult)
    (st : target.KafkaWriteState) :
    (results.foldl target.kafkaAsyncStep st).sent.length +
      (results.foldl target.kafkaAsyncStep st).failed.length =
      st.sent.length + st.failed.length + results.length := by
  induction results generalizing st with
  | nil => simp
  | cons r rs ih =>
    simp only [List.foldl_cons, ih, kafkaAsyncStep_counts, List.length_cons]
    omega

theorem append_Total (r o : pkgmodels.TargetWriteResult) :
    (r.Append o).Total = r.Total + o.Total := by
  simp [pkgmodels.TargetWriteResult.Append, pkgmodels.TargetWriteResult.Total,
    pkgmodels.TargetWriteResult.SentCount, pkgmodels.TargetWriteResult.FailedCount,
    pkgmodels.TargetWriteResult.OversizedCount, pkgmodels.TargetWriteResult.InvalidCount]
  omega

theorem eventHubProcess_Total (sendBatchErr : Option String) (messages : List Message) :
    (target.eventHubProcess sendBatchErr messages).1.Total = messages.length := by
  unfold target.eventHubProcess
  cases sendBatchErr <;>
    simp [pkgmodels.NewTargetWriteResult, pkgmodels.TargetWriteResult.Total,
      pkgmodels.TargetWriteResult.SentCount, pkgmodels.TargetWriteResult.FailedCount,
      pkgmodels.TargetWriteResult.OversizedCount, pkgmodels.TargetWriteResult.InvalidCount]

/-- Conservation measure of the chunker state: messages already placed in
closed chunks, in the oversized list, and in the open chunk. -/
def chunkStateSize (acc : List (List Message) × List Message × List Message × Nat) : Nat :=
  (acc.1.map List.length).sum + acc.2.1.length + acc.2.2.1.length

theorem chunkStep_size (cml mbl cbl : Nat)
    (acc : List (List Message) × List Message × List Message × Nat) (m : Message) :
    chunkStateSize (pkgmodels.chunkStep cml mbl cbl acc m) = chunkStateSize acc + 1 := by
  obtain ⟨closed, oversized, current, currentBytes⟩ := acc
  simp only [pkgmodels.chunkStep, chunkStateSize]
  split
  · simp
    omega
  · split
    · simp
      omega
    · simp
      omega

theorem chunkFold_size (cml mbl cbl : Nat) (messages : List Message)
    (acc : List (List Message) × List Message × List Message × Nat) :
    chunkStateSize (messages.foldl (pkgmodels.chunkStep cml mbl cbl) acc) =
      chunkStateSize acc + messages.length := by
  induction messages generalizing acc with
  | nil => simp
  | cons m ms ih =>
    simp only [List.foldl_cons, ih, chunkStep_size, List.length_cons]
    omega

theorem getChunkedMessages_length (messages : List Message) (cml mbl cbl : Nat) :
    ((pkgmodels.GetChunkedMessages messages cml mbl cbl).1.map List.length).sum +
      (pkgmodels.GetChunkedMessages messages cml mbl cbl).2.length = messages.length := by
  unfold pkgmodels.GetChunkedMessages
  have h := chunkFold_size cml mbl cbl messages ([], [], [], 0)
  set st := messages.foldl (pkgmodels.chunkStep cml mbl cbl) ([], [], [], 0) with hst
  obtain ⟨closed, oversized, current, currentBytes⟩ := st
  simp only [chunkStateSize, List.map_nil, List.sum_nil, List.length_nil] at h
  by_cases hc : current = [] <;> simp [hc] <;> simp [hc] at h <;> omega

theorem newTWR_Total (s f o i : List Message) :
    (pkgmodels.NewTargetWriteResult s f o i).Total =
      s.length + f.length + o.length + i.length := rfl

theorem kafkaWriteSync_Total (byteLimit : Nat) (sendOutcome : Message → Option String)
    (messages : List Message) :
    (target.kafkaWriteSync byteLimit sendOutcome messages).1.Total = messages.length := by
  have hfold := kafkaSyncFold_counts sendOutcome
    (pkgmodels.FilterOversizedMessages messages byteLimit).1 ⟨[], [], [], []⟩
  have hpart := filterOversized_length messages byteLimit
  simp only [target.kafkaWriteSync, newTWR_Total, List.length_nil]
  simp only [List.length_nil] at hfold
  omega

theorem kafkaWriteAsync_Total (byteLimit : Nat) (asyncResults : List target.SaramaResult)
    (messages : List Message)
    (h : (pkgmodels.FilterOversizedMessages messages byteLimit).1.length ≤
      asyncResults.length) :
    (target.kafkaWriteAsync byteLimit asyncResults messages).result.Total =
      messages.length := by
  have hfold := kafkaAsyncFold_counts
    (asyncResults.take (pkgmodels.FilterOversizedMessages messages byteLimit).1.length)
    ⟨[], [], [], []⟩
  have hpart := filterOversized_length messages byteLimit
  have htake : (asyncResults.take
      (pkgmodels.FilterOversizedMessages messages byteLimit).1.length).length =
      (pkgmodels.FilterOversizedMessages messages byteLimit).1.length := by
    rw [List.length_take, Nat.min_eq_left h]
  simp only [target.kafkaWriteAsync, newTWR_Total, List.length_nil]
  simp only [List.length_nil, htake] at hfold
  omega

theorem eventHubWriteStep_Total (sendOutcome : List Message → Option String)
    (acc : pkgmodels.TargetWriteResult × List String × List Message)
    (chunk : List Message) :
    (target.eventHubWriteStep sendOutcome acc chunk).1.Total =
      acc.1.Total + chunk.length := by
  simp only [target.eventHubWriteStep, append_Total, eventHubProcess_Total]

theorem eventHubFold_Total (sendOutcome : List Message → Option String)
    (chunks : List (List Message))
    (acc : pkgmodels.TargetWriteResult × List String × List Message) :
    ((chunks.foldl (target.eventHubWriteStep sendOutcome) acc).1).Total =
      acc.1.Total + (chunks.map List.length).sum := by
  induction chunks generalizing acc with
  | nil => simp
  | cons c cs ih =>
    simp only [List.foldl_cons, ih, eventHubWriteStep_Total, List.map_cons,
      List.sum_cons]
    omega

theorem eventHubWrite_Total (eht : target.EventHubTarget)
    (sendOutcome : List Message → Option String) (messages : List Message) :
    (target.eventHubWrite eht sendOutcome messages).1.Total = messages.length := by
  have hchunks := getChunkedMessages_length messages
    eht.chunkMessageLimit eht.messageByteLimit eht.chunkByteLimit
  simp only [target.eventHubWrite]
  rw [eventHubFold_Total]
  simp only [pkgmodels.TargetWriteResult.Total, pkgmodels.TargetWriteResult.SentCount,
    pkgmodels.TargetWriteResult.FailedCount, pkgmodels.TargetWriteResult.OversizedCount,
    pkgmodels.TargetWriteResult.InvalidCount, List.length_nil]
  omega

/-! Claim theorems. -/

/-- C1: for every write call the DeliveryResult counts partition the input
batch — Sent + Failed + Oversized + Invalid (= Total) equals the number of
input messages — on the synchronous Kafka path, on the asynchronous Kafka
path (given one channel outcome per submitted message, in particular when
the transport fails a whole batch), and on the EventHub path. -/
theorem claim_C1_write_counts_partition_input :
    (∀ (byteLimit : Nat) (sendOutcome : Message → Option String)
      (messages : List Message),
      (target.kafkaWriteSync byteLimit sendOutcome messages).1.Total =
        messages.length) ∧
    (∀ (byteLimit : Nat) (asyncResults : List target.SaramaResult)
      (messages : List Message),
      (pkgmodels.FilterOversizedMessages messages byteLimit).1.length ≤
        asyncResults.length →
      (target.kafkaWriteAsync byteLimit asyncResults messages).result.Total =
        messages.length) ∧
    (∀ (eht : target.EventHubTarget) (sendOutcome : List Message → Option String)
      (messages : List Message),
      (target.eventHubWrite eht sendOutcome messages).1.Total = messages.length) :=
  ⟨kafkaWriteSync_Total, kafkaWriteAsync_Total, eventHubWrite_Total⟩

/-- Concrete message used by the witnesses. -/
def wmsg : Message :=
  { Data := "abc", PartitionKey := "k", TimeCreated := 1, TimePulled := 2
    AckFunc := some 0, Err := none }

/-- Witness for C1: the async-path hypothesis (one available channel outcome
for the single safe message) is satisfiable and the partition holds there. -/
theorem claim_C1_witness :
    (pkgmodels.FilterOversizedMessages [wmsg] 16).1.length ≤ 1 ∧
    (target.kafkaWriteAsync 16 [{ Msg := wmsg, Err := some "boom" }] [wmsg]).result.Total
      = 1 := by
  refine ⟨by decide, ?_⟩
  exact claim_C1_write_counts_partition_input.2.1 16
    [{ Msg := wmsg, Err := some "boom" }] [wmsg] (by decide)

/-- C5: when the EventHub transport reports an error for a chunk (it cannot
distinguish partial success inside the batch), process reports every message
of the chunk Failed, reports none Sent, and returns the wrapped causing
error rather than swallowing it. -/
theorem claim_C5_eventhub_chunk_error_all_failed (e : String) (chunk : List Message) :
    (target.eventHubProcess (some e) chunk).1.Failed = chunk ∧
    (target.eventHubProcess (some e) chunk).1.Sent = [] ∧
    (target.eventHubProcess (some e) chunk).2.1 =
      some ("Failed to send message batch to EventHub: " ++ e) := by
  simp [target.eventHubProcess, pkgmodels.NewTargetWriteResult]

theorem kafkaSyncFold_acks (sendOutcome : Message → Option String)
    (msgs : List Message) (st : target.KafkaWriteState)
    (h : st.acks = st.sent.filter (fun m => m.AckFunc.isSome)) :
    (msgs.foldl (target.kafkaSyncStep sendOutcome) st).acks =
      (msgs.foldl (target.kafkaSyncStep sendOutcome) st).sent.filter
        (fun m => m.AckFunc.isSome) := by
  induction msgs generalizing st with
  | nil => exact h
  | cons m ms ih =>
    simp only [List.foldl_cons]
    apply ih
    cases hm : sendOutcome m
    · simp [target.kafkaSyncStep, hm, List.filter_append, h]
      cases ha : m.AckFunc <;> simp [ha]
    · simp [target.kafkaSyncStep, hm, List.filter_append, h]

theorem kafkaAsyncFold_acks (results : List target.SaramaResult)
    (st : target.KafkaWriteState)
    (h : st.acks = st.sent.filter (fun m => m.AckFunc.isSome)) :
    (results.foldl target.kafkaAsyncStep st).acks =
      (results.foldl target.kafkaAsyncStep st).sent.filter
        (fun m => m.AckFunc.isSome) := by
  induction results generalizing st with
  | nil => exact h
  | cons r rs ih =>
    simp only [List.foldl_cons]
    apply ih
    cases hr : r.Err
    · simp [target.kafkaAsyncStep, hr, List.filter_append, h]
      cases ha : r.Msg.AckFunc <;> simp [ha]
    · simp [target.kafkaAsyncStep, hr, List.filter_append, h]

theorem eventHubFold_acks (sendOutcome : List Message → Option String)
    (chunks : List (List Message))
    (acc : pkgmodels.TargetWriteResult × List String × List Message)
    (h : acc.2.2 = acc.1.Sent.filter (fun m => m.AckFunc.isSome)) :
    (chunks.foldl (target.eventHubWriteStep sendOutcome) acc).2.2 =
      (chunks.foldl (target.eventHubWriteStep sendOutcome) acc).1.Sent.filter
        (fun m => m.AckFunc.isSome) := by
  induction chunks generalizing acc with
  | nil => exact h
  | cons c cs ih =>
    simp only [List.foldl_cons]
    apply ih
    cases hc : sendOutcome c <;>
      simp [target.eventHubWriteStep, target.eventHubProcess, hc,
        pkgmodels.TargetWriteResult.Append, pkgmodels.NewTargetWriteResult,
        List.filter_append, h]

/-- C6: in every write call, the acknowledgment callbacks that fire (before
the call returns) are exactly one invocation per message classified Sent
whose callback is non-nil — messages classified Failed or Oversized never
have their callback invoked — on the synchronous Kafka path, the
asynchronous Kafka path, and the EventHub path. -/
theorem claim_C6_acks_fire_exactly_for_sent :
    (∀ (byteLimit : Nat) (sendOutcome : Message → Option String)
      (messages : List Message),
      (target.kafkaWriteSync byteLimit sendOutcome messages).2.2 =
        (target.kafkaWriteSync byteLimit sendOutcome messages).1.Sent.filter
          (fun m => m.AckFunc.isSome)) ∧
    (∀ (byteLimit : Nat) (asyncResults : List target.SaramaResult)
      (messages : List Message),
      (target.kafkaWriteAsync byteLimit asyncResults messages).acks =
        (target.kafkaWriteAsync byteLimit asyncResults messages).result.Sent.filter
          (fun m => m.AckFunc.isSome)) ∧
    (∀ (eht : target.EventHubTarget) (sendOutcome : List Message → Option String)
      (messages : List Message),
      (target.eventHubWrite eht sendOutcome messages).2.2 =
        (target.eventHubWrite eht sendOutcome messages).1.Sent.filter
          (fun m => m.AckFunc.isSome)) := by
  refine ⟨?_, ?_, ?_⟩
  · intro byteLimit sendOutcome messages
    simp only [target.kafkaWriteSync, pkgmodels.NewTargetWriteResult]
    exact kafkaSyncFold_acks sendOutcome _ ⟨[], [], [], []⟩ rfl
  · intro byteLimit asyncResults messages
    simp only [target.kafkaWriteAsync, pkgmodels.NewTargetWriteResult]
    exact kafkaAsyncFold_acks _ ⟨[], [], [], []⟩ rfl
  · intro eht sendOutcome messages
    simp only [target.eventHubWrite]
    exact eventHubFold_acks sendOutcome _ _ rfl

theorem kafkaAsyncFold_classification (results : List target.SaramaResult)
    (st : target.KafkaWriteState) :
    ((results.foldl target.kafkaAsyncStep st).sent.map Message.clearError ++
     (results.foldl target.kafkaAsyncStep st).failed.map Message.clearError).Perm
      ((st.sent.map Message.clearError ++ st.failed.map Message.clearError) ++
        results.map (fun r => r.Msg.clearError)) := by
  induction results generalizing st with
  | nil => simp
  | cons r rs ih =>
    simp only [List.foldl_cons, List.map_cons]
    cases hr : r.Err
    · refine (ih _).trans ?_
      simp only [target.kafkaAsyncStep, hr, List.map_append, List.map_cons,
        List.map_nil, List.append_assoc]
      refine List.Perm.append_left _ ?_
      simpa using (List.perm_middle).symm
    · refine (ih _).trans ?_
      simp [target.kafkaAsyncStep, hr, Message.clearError, Message.SetError,
        List.append_assoc]

/-- C4: the asynchronous Kafka write drains exactly one outcome from the
result stream per submitted (non-oversized) message before returning, each
outcome carrying its originating message through the producer-message
Metadata handle; consequently — given the sarama contract that the stream
yields exactly one outcome per submitted message (`hcontract`) — the Sent
and Failed lists together are a permutation of the submitted messages (up
to the error annotation the write itself attaches): no message is counted
both Sent and Failed and no submitted message is missing. -/
theorem claim_C4_async_strict_accounting (byteLimit : Nat)
    (asyncResults : List target.SaramaResult) (messages : List Message)
    (hcontract : (asyncResults.map (fun r => r.Msg)).Perm
      (pkgmodels.FilterOversizedMessages messages byteLimit).1) :
    (target.kafkaWriteAsync byteLimit asyncResults messages).drained =
      (pkgmodels.FilterOversizedMessages messages byteLimit).1.length ∧
    ((target.kafkaWriteAsync byteLimit asyncResults messages).result.Sent.map
        Message.clearError ++
      (target.kafkaWriteAsync byteLimit asyncResults messages).result.Failed.map
        Message.clearError).Perm
      ((pkgmodels.FilterOversizedMessages messages byteLimit).1.map
        Message.clearError) := by
  have hlen : asyncResults.length =
      (pkgmodels.FilterOversizedMessages messages byteLimit).1.length := by
    have h := hcontract.length_eq
    simpa using h
  have htake : asyncResults.take
      (pkgmodels.FilterOversizedMessages messages byteLimit).1.length = asyncResults := by
    rw [← hlen]
    exact List.take_length asyncResults
  constructor
  · simp only [target.kafkaWriteAsync]
    rw [htake, hlen]
  · simp only [target.kafkaWriteAsync, pkgmodels.NewTargetWriteResult]
    rw [htake]
    have hfold := kafkaAsyncFold_classification asyncResults ⟨[], [], [], []⟩
    simp only [List.map_nil, List.append_nil, List.nil_append] at hfold
    refine hfold.trans ?_
    have hmap := hcontract.map Message.clearError
    simpa [List.map_map, Function.comp] using hmap

/-- Witness for C4: a one-message batch whose single channel outcome is a
failure satisfies the sarama contract, and the write drains exactly that one
outcome. -/
theorem claim_C4_witness :
    ((([{ Msg := wmsg, Err := some "boom" }] : List target.SaramaResult).map
        (fun r => r.Msg)).Perm
      (pkgmodels.FilterOversizedMessages [wmsg] 16).1) ∧
    (target.kafkaWriteAsync 16 [{ Msg := wmsg, Err := some "boom" }] [wmsg]).drained =
      (pkgmodels.FilterOversizedMessages [wmsg] 16).1.length := by
  refine ⟨by decide, ?_⟩
  exact (claim_C4_async_strict_accounting 16 [{ Msg := wmsg, Err := some "boom" }]
    [wmsg] (by decide)).1

/-- C9: NewKafkaTarget fails fast on configuration errors: whenever the
TargetVersion is non-empty and does not parse or parses to a version outside
the supported list, or EnableSASL is set with a SASLAlgorithm other than
sha256/sha512/plaintext, the constructor returns a nil target and a non-nil
error, and no sarama producer is ever created (third component false — hence
nothing to retry). -/
theorem claim_C9_kafka_construction_fail_fast (sv : target.SaramaVersions)
    (tlsResult : Except String Bool) (producerResult : Option String)
    (cfg : target.KafkaConfig)
    (h : (cfg.TargetVersion ≠ "" ∧
           (sv.ParseKafkaVersion cfg.TargetVersion = none ∨
            ∀ v, sv.ParseKafkaVersion cfg.TargetVersion = some v →
              ¬ sv.SupportedVersions.contains v)) ∨
         (cfg.EnableSASL ∧ cfg.SASLAlgorithm ≠ "sha256" ∧
          cfg.SASLAlgorithm ≠ "sha512" ∧ cfg.SASLAlgorithm ≠ "plaintext")) :
    (target.NewKafkaTarget sv tlsResult producerResult cfg).1 = none ∧
    (target.NewKafkaTarget sv tlsResult producerResult cfg).2.1.isSome = true ∧
    (target.NewKafkaTarget sv tlsResult producerResult cfg).2.2 = false := by
  cases hv : target.getKafkaVersion sv cfg.TargetVersion with
  | error e => simp [target.NewKafkaTarget, hv]
  | ok v =>
    rcases h with ⟨hne, hbad⟩ | hsasl
    · exfalso
      unfold target.getKafkaVersion at hv
      rw [if_pos hne] at hv
      cases hp : sv.ParseKafkaVersion cfg.TargetVersion with
      | none =>
        rw [hp] at hv
        simp at hv
      | some p =>
        rw [hp] at hv
        rcases hbad with hnone | hunsup
        · rw [hp] at hnone
          cases hnone
        · have hx : p ∉ sv.SupportedVersions := by simpa using hunsup p hp
          simp [hx] at hv
    · have hcond : cfg.EnableSASL = true ∧ cfg.SASLAlgorithm ≠ "sha512" ∧
          cfg.SASLAlgorithm ≠ "sha256" ∧ cfg.SASLAlgorithm ≠ "plaintext" :=
        ⟨hsasl.1, hsasl.2.2.1, hsasl.2.1, hsasl.2.2.2⟩
      simp [target.NewKafkaTarget, hv, hcond.1, hcond.2.1, hcond.2.2.1, hcond.2.2.2]

/-- Concrete sarama model for the C9 witness: nothing parses. -/
def witSarama : target.SaramaVersions :=
  { ParseKafkaVersion := fun _ => none
    SupportedVersions := []
    DefaultVersion := "1.0.0" }

/-- Concrete Kafka config for the C9 witness: a TargetVersion that does not
parse. -/
def witKafkaCfg : target.KafkaConfig :=
  { Brokers := "localhost:9092", TopicName := "t", TargetVersion := "9.9.9"
    MaxRetries := 10, ByteLimit := 1048576, Compress := false
    WaitForAll := false, Idempotent := false, EnableSASL := false
    SASLUsername := "", SASLPassword := "", SASLAlgorithm := ""
    CertFile := "", KeyFile := "", CaFile := "", SkipVerifyTls := false
    ForceSync := false, FlushFrequency := 0, FlushMessages := 0, FlushBytes := 0 }

/-- Witness for C9: an unparseable non-empty TargetVersion yields a nil
target, a non-nil error, and no producer creation. -/
theorem claim_C9_witness :
    (witKafkaCfg.TargetVersion ≠ "" ∧
      witSarama.ParseKafkaVersion witKafkaCfg.TargetVersion = none) ∧
    (target.NewKafkaTarget witSarama (Except.ok false) none witKafkaCfg).1 = none ∧
    (target.NewKafkaTarget witSarama (Except.ok false) none witKafkaCfg).2.2 = false := by
  have h := claim_C9_kafka_construction_fail_fast witSarama (Except.ok false) none
    witKafkaCfg (Or.inl ⟨by decide, Or.inl rfl⟩)
  exact ⟨⟨by decide, rfl⟩, h.1, h.2.2⟩

/-- Counterexample to C3 as stated: Stop (source lines 172-175) is a
blocking send on the exitSignal channel, which NewSQSSourceWithInterfaces
creates unbuffered (line 57).  Called before any Read loop has started there
is no receiver, so the send never completes: stop() blocks forever instead
of returning. -/
theorem claim_C3_counterexample :
    source.stopCompletes (source.NewSQSSourceWithInterfaces 3 "eu-west-1" "q")
      false = false := rfl

/-- C3 (amended): stop() is a rendezvous send on the unbuffered exitSignal
channel — it completes exactly when an active Read loop is selecting on the
exit signal.  In particular, called before any read() loop has started (or a
concurrent second stop() with no second receiver) it blocks forever rather
than returning. -/
theorem claim_C3_stop_is_rendezvous (concurrentWrites : Nat)
    (region queueName : String) (readLoopSelecting : Bool) :
    source.stopCompletes
      (source.NewSQSSourceWithInterfaces concurrentWrites region queueName)
      readLoopSelecting = readLoopSelecting := by
  simp [source.stopCompletes, source.chanSendCompletes,
    source.NewSQSSourceWithInterfaces]

theorem runSlots_le (capacity : Nat) (evs : List source.SlotEvent) (n k : Nat)
    (hn : n ≤ capacity) (h : source.runSlots capacity evs n = some k) :
    k ≤ capacity := by
  induction evs generalizing n with
  | nil =>
    simp only [source.runSlots, Option.some_inj] at h
    omega
  | cons e evs ih =>
    cases e with
    | launch =>
      simp only [source.runSlots] at h
      split at h
      · exact ih (n + 1) (by omega) h
      · cases h
    | complete =>
      simp only [source.runSlots] at h
      cases n with
      | zero => cases h
      | succ m => exact ih m (by omega) h

/-- C8: in the Read loop the number of in-flight worker units never exceeds
the configured slot count concurrentWrites (the capacity of the throttle
channel, source line 74): every reachable state of the slot discipline
started from zero holds at most concurrentWrites slots, and a launch when
all slots are held blocks (the send into the full throttle channel does not
proceed). -/
theorem claim_C8_inflight_bounded_by_slots (concurrentWrites : Nat)
    (region queueName : String) :
    (∀ (evs : List source.SlotEvent) (k : Nat),
      source.runSlots
        (source.readThrottleCapacity
          (source.NewSQSSourceWithInterfaces concurrentWrites region queueName))
        evs 0 = some k → k ≤ concurrentWrites) ∧
    (∀ (evs : List source.SlotEvent),
      source.runSlots
        (source.readThrottleCapacity
          (source.NewSQSSourceWithInterfaces concurrentWrites region queueName))
        (source.SlotEvent.launch :: evs) concurrentWrites = none) := by
  constructor
  · intro evs k h
    exact runSlots_le concurrentWrites evs 0 k (Nat.zero_le _) h
  · intro evs
    simp [source.runSlots, source.readThrottleCapacity,
      source.NewSQSSourceWithInterfaces]

/-- Witness for C8: with 2 slots, the trace launch-launch-complete-launch is
admitted and ends with 2 ≤ 2 in flight. -/
theorem claim_C8_witness :
    source.runSlots
      (source.readThrottleCapacity (source.NewSQSSourceWithInterfaces 2 "r" "q"))
      [source.SlotEvent.launch, source.SlotEvent.launch, source.SlotEvent.complete,
        source.SlotEvent.launch] 0 = some 2 ∧ 2 ≤ 2 := by
  refine ⟨rfl, ?_⟩
  exact (claim_C8_inflight_bounded_by_slots 2 "r" "q").1
    [source.SlotEvent.launch, source.SlotEvent.launch, source.SlotEvent.complete,
      source.SlotEvent.launch] 2 rfl

/-- One healthy SQS message used by the C2 scenario. -/
def sqsMsgOk : source.SQSMessage :=
  { Body := "payload", ReceiptHandle := "rh-1"
    Attributes := [("SentTimestamp", "1600000000000")] }

/-- Deterministic target failure used by the C2 scenario. -/
def targetFailure : List Message → Option String :=
  fun _ => some "deterministic target failure on 4th delivery"

/-- Counterexample to C2 as stated: cycles 1-3 fetch and deliver cleanly and
the 4th cycle's Target delivery fails deterministically, yet read()
terminates with nil — not with the 4th delivery error — because process
(source lines 164-168) logs the WriteToTarget error and returns nil, so no
error is ever posted to processErrorSignal. -/
theorem claim_C2_counterexample :
    source.ReadModel (fun _ => "uuid") 0
      [(Except.ok [sqsMsgOk], fun _ => none),
       (Except.ok [sqsMsgOk], fun _ => none),
       (Except.ok [sqsMsgOk], fun _ => none),
       (Except.ok [sqsMsgOk], targetFailure)] = none := rfl

/-- C2 (amended): the engine is fail-fast for FETCH errors only.  A worker
cycle propagates its ReceiveMessage error (wrapped) and Read stops launching
new work and returns the first posted error after the join; a Target
delivery failure inside a worker is logged and dropped — process returns
nil — so Read neither stops nor returns it (in the 3-slot scenario with a
Target failing deterministically on the 4th delivery, read() does not
return that error). -/
theorem claim_C2_read_failfast_fetch_errors_only (uuidGen : Nat → String)
    (timePulled : Int) :
    (∀ (e : String) (writeToTarget : List Message → Option String),
      source.process (Except.error e) uuidGen timePulled writeToTarget =
        some ("Failed to get message from SQS queue: " ++ e)) ∧
    (∀ (msgs : List source.SQSMessage) (writeToTarget : List Message → Option String),
      source.process (Except.ok msgs) uuidGen timePulled writeToTarget = none) ∧
    (∀ (healthy : List (Except String (List source.SQSMessage) ×
        (List Message → Option String))),
      (∀ c ∈ healthy, source.process c.1 uuidGen timePulled c.2 = none) →
      ∀ (e : String) (rest : List (Except String (List source.SQSMessage) ×
        (List Message → Option String))),
        source.ReadModel uuidGen timePulled
          (healthy ++ (Except.error e, fun _ => none) :: rest) =
          some ("Failed to get message from SQS queue: " ++ e)) := by
  refine ⟨fun e w => rfl, ?_, ?_⟩
  · intro msgs writeToTarget
    unfold source.process
    cases h : writeToTarget (source.sqsBuildMessages uuidGen timePulled msgs) <;>
      simp [h]
  · intro healthy hhealthy e rest
    induction healthy with
    | nil => rfl
    | cons c cs ih =>
      have hc : source.process c.1 uuidGen timePulled c.2 = none :=
        hhealthy c (List.mem_cons_self c cs)
      have hcs : ∀ x ∈ cs, source.process x.1 uuidGen timePulled x.2 = none :=
        fun x hx => hhealthy x (List.mem_cons_of_mem c hx)
      simp only [source.ReadModel, List.cons_append, List.map_cons, hc] at ih ⊢
      rw [source.readTerminal]
      exact ih hcs

/-- Witness for C2 (amended): three healthy cycles followed by a cycle whose
fetch fails; read() returns that wrapped fetch error. -/
theorem claim_C2_witness :
    (∀ c ∈ [((Except.ok [sqsMsgOk] : Except String (List source.SQSMessage)),
        (fun _ => none : List Message → Option String)),
       (Except.ok [sqsMsgOk], fun _ => none),
       (Except.ok [sqsMsgOk], fun _ => none)],
      source.process c.1 (fun _ => "uuid") 0 c.2 = none) ∧
    source.ReadModel (fun _ => "uuid") 0
      [(Except.ok [sqsMsgOk], fun _ => none),
       (Except.ok [sqsMsgOk], fun _ => none),
       (Except.ok [sqsMsgOk], fun _ => none),
       (Except.error "connection reset", fun _ => none)] =
      some ("Failed to get message from SQS queue: " ++ "connection reset") := by
  have hhealthy : ∀ c ∈ [((Except.ok [sqsMsgOk] : Except String (List source.SQSMessage)),
        (fun _ => none : List Message → Option String)),
       (Except.ok [sqsMsgOk], fun _ => none),
       (Except.ok [sqsMsgOk], fun _ => none)],
      source.process c.1 (fun _ => "uuid") 0 c.2 = none := by
    have hok := (claim_C2_read_failfast_fetch_errors_only (fun _ => "uuid") 0).2.1
    intro c hc
    simp only [List.mem_cons, List.not_mem_nil, or_false] at hc
    rcases hc with rfl | rfl | rfl <;> exact hok [sqsMsgOk] (fun _ => none)
  refine ⟨hhealthy, ?_⟩
  exact (claim_C2_read_failfast_fetch_errors_only (fun _ => "uuid") 0).2.2
    [(Except.ok [sqsMsgOk], fun _ => none),
     (Except.ok [sqsMsgOk], fun _ => none),
     (Except.ok [sqsMsgOk], fun _ => none)] hhealthy "connection reset" []

/-- C10: for every SQS message whose SentTimestamp attribute is absent or
fails integer parsing, the source still constructs and forwards one pipeline
Message (one output per input, and process returns no error for the batch)
whose TimeCreated equals TimePulled — so TimeCreated is always populated. -/
theorem claim_C10_sent_timestamp_fallback (uuidGen : Nat → String)
    (timePulled : Int) (msgs : List source.SQSMessage) :
    (source.sqsBuildMessages uuidGen timePulled msgs).length = msgs.length ∧
    (∀ (writeToTarget : List Message → Option String),
      source.process (Except.ok msgs) uuidGen timePulled writeToTarget = none) ∧
    (∀ (i : Nat) (hi : i < msgs.length)
      (hj : i < (source.sqsBuildMessages uuidGen timePulled msgs).length),
      (source.lookupAttribute (msgs.get ⟨i, hi⟩).Attributes
          source.MessageSystemAttributeNameSentTimestamp = none ∨
       (∃ s, source.lookupAttribute (msgs.get ⟨i, hi⟩).Attributes
            source.MessageSystemAttributeNameSentTimestamp = some s ∧
          source.parseInt64 s = none)) →
      ((source.sqsBuildMessages uuidGen timePulled msgs).get ⟨i, hj⟩).TimeCreated
          = timePulled ∧
      ((source.sqsBuildMessages uuidGen timePulled msgs).get ⟨i, hj⟩).TimePulled
          = timePulled) := by
  refine ⟨?_, ?_, ?_⟩
  · simp [source.sqsBuildMessages]
  · intro writeToTarget
    unfold source.process
    cases h : writeToTarget (source.sqsBuildMessages uuidGen timePulled msgs) <;>
      simp [h]
  · intro i hi hj hbad
    have hget : (source.sqsBuildMessages uuidGen timePulled msgs).get ⟨i, hj⟩ =
        { Data := (msgs.get ⟨i, hi⟩).Body
          PartitionKey := uuidGen i
          TimeCreated := source.sqsTimeCreated timePulled (msgs.get ⟨i, hi⟩).Attributes
          TimePulled := timePulled
          AckFunc := some i
          Err := none } := by
      simp [source.sqsBuildMessages, List.get_eq_getElem, List.getElem_map,
        List.getElem_zip, List.getElem_range]
    rw [hget]
    refine ⟨?_, rfl⟩
    rcases hbad with hnone | ⟨s, hs, hp⟩
    · rw [List.get_eq_getElem] at hnone
      simp [source.sqsTimeCreated, hnone]
    · rw [List.get_eq_getElem] at hs
      simp [source.sqsTimeCreated, hs, hp]

/-- SQS message with no SentTimestamp attribute (C10 witness). -/
def sqsMsgNoTs : source.SQSMessage :=
  { Body := "b1", ReceiptHandle := "r1", Attributes := [] }

/-- SQS message whose SentTimestamp does not parse as an integer (C10
witness). -/
def sqsMsgBadTs : source.SQSMessage :=
  { Body := "b2", ReceiptHandle := "r2", Attributes := [("SentTimestamp", "12a")] }

/-- Witness for C10: the message with the unparseable SentTimestamp is still
emitted, with TimeCreated equal to the pull time 7. -/
theorem claim_C10_witness :
    (source.lookupAttribute sqsMsgBadTs.Attributes
        source.MessageSystemAttributeNameSentTimestamp = some "12a" ∧
      source.parseInt64 "12a" = none) ∧
    ((source.sqsBuildMessages (fun _ => "u") 7 [sqsMsgNoTs, sqsMsgBadTs]).get
        ⟨1, by decide⟩).TimeCreated = 7 := by
  refine ⟨⟨rfl, rfl⟩, ?_⟩
  have h := (claim_C10_sent_timestamp_fallback (fun _ => "u") 7
      [sqsMsgNoTs, sqsMsgBadTs]).2.2 1 (by decide) (by decide)
    (Or.inr ⟨"12a", rfl, rfl⟩)
  exact h.1

theorem writeResultFold_char (t : Int) (msgs : List Message)
    (r : internalmodels.TargetWriteResult) (sp sm : Int) :
    msgs.foldl (internalmodels.writeResultStep t) (r, sp, sm) =
      ({ r with
          MaxProcLatency := (msgs.map (fun m => t - m.TimePulled)).foldl
            internalmodels.maxU r.MaxProcLatency
          MinProcLatency := (msgs.map (fun m => t - m.TimePulled)).foldl
            internalmodels.minU r.MinProcLatency
          MaxMsgLatency := (msgs.map (fun m => t - m.TimeCreated)).foldl
            internalmodels.maxU r.MaxMsgLatency
          MinMsgLatency := (msgs.map (fun m => t - m.TimeCreated)).foldl
            internalmodels.minU r.MinMsgLatency },
       (msgs.map (fun m => t - m.TimePulled)).foldl (fun a b => a + b) sp,
       (msgs.map (fun m => t - m.TimeCreated)).foldl (fun a b => a + b) sm) := by
  induction msgs generalizing r sp sm with
  | nil => rfl
  | cons m ms ih =>
    simp only [List.foldl_cons, List.map_cons]
    rw [show internalmodels.writeResultStep t (r, sp, sm) m =
      ({ r with
          MaxProcLatency := internalmodels.maxU r.MaxProcLatency (t - m.TimePulled)
          MinProcLatency := internalmodels.minU r.MinProcLatency (t - m.TimePulled)
          MaxMsgLatency := internalmodels.maxU r.MaxMsgLatency (t - m.TimeCreated)
          MinMsgLatency := internalmodels.minU r.MinMsgLatency (t - m.TimeCreated) },
        sp + (t - m.TimePulled), sm + (t - m.TimeCreated)) from rfl]
    rw [ih]

theorem le_foldl_maxU (l : List Int) (a : Int) :
    a ≤ l.foldl internalmodels.maxU a := by
  induction l generalizing a with
  | nil => simp
  | cons b bs ih =>
    refine le_trans ?_ (ih (internalmodels.maxU a b))
    unfold internalmodels.maxU
    split <;> omega

theorem mem_le_foldl_maxU (l : List Int) (a x : Int) (hx : x ∈ l) :
    x ≤ l.foldl internalmodels.maxU a := by
  induction l generalizing a with
  | nil => cases hx
  | cons b bs ih =>
    rcases List.mem_cons.mp hx with rfl | hmem
    · refine le_trans ?_ (le_foldl_maxU bs (internalmodels.maxU a x))
      unfold internalmodels.maxU
      split <;> omega
    · exact ih (internalmodels.maxU a b) hmem

theorem foldl_maxU_eq_init_or_mem (l : List Int) (a : Int) :
    l.foldl internalmodels.maxU a = a ∨ l.foldl internalmodels.maxU a ∈ l := by
  induction l generalizing a with
  | nil => exact Or.inl rfl
  | cons b bs ih =>
    rcases ih (internalmodels.maxU a b) with h | h
    · rw [List.foldl_cons, h]
      unfold internalmodels.maxU
      split
      · exact Or.inr (List.mem_cons_self b bs)
      · exact Or.inl rfl
    · exact Or.inr (List.mem_cons_of_mem b h)

theorem minU_pos (a b : Int) (ha : 0 < a) (hb : 0 < b) :
    0 < internalmodels.minU a b := by
  unfold internalmodels.minU
  split <;> omega

theorem foldl_minU_le_init (l : List Int) (a : Int) (ha : 0 < a)
    (hl : ∀ x ∈ l, 0 < x) : l.foldl internalmodels.minU a ≤ a := by
  induction l generalizing a with
  | nil => simp
  | cons b bs ih =>
    have hb : 0 < b := hl b (List.mem_cons_self b bs)
    have hstep := ih (internalmodels.minU a b) (minU_pos a b ha hb)
      (fun x hx => hl x (List.mem_cons_of_mem b hx))
    refine le_trans hstep ?_
    unfold internalmodels.minU
    split <;> omega

theorem foldl_minU_le_mem :
    ∀ (l : List Int) (a x : Int), 0 < a → (∀ y ∈ l, 0 < y) → x ∈ l →
      l.foldl internalmodels.minU a ≤ x := by
  intro l
  induction l with
  | nil =>
    intro a x ha hl hx
    cases hx
  | cons b bs ih =>
    intro a x ha hl hx
    have hb : 0 < b := hl b (List.mem_cons_self b bs)
    rcases List.mem_cons.mp hx with rfl | hmem
    · refine le_trans (foldl_minU_le_init bs (internalmodels.minU a x)
        (minU_pos a x ha hb) (fun y hy => hl y (List.mem_cons_of_mem x hy))) ?_
      unfold internalmodels.minU
      split <;> omega
    · exact ih (internalmodels.minU a b) x (minU_pos a b ha hb)
        (fun y hy => hl y (List.mem_cons_of_mem b hy)) hmem

theorem foldl_minU_eq_init_or_mem (l : List Int) (a : Int) :
    l.foldl internalmodels.minU a = a ∨ l.foldl internalmodels.minU a ∈ l := by
  induction l generalizing a with
  | nil => exact Or.inl rfl
  | cons b bs ih =>
    rcases ih (internalmodels.minU a b) with h | h
    · rw [List.foldl_cons, h]
      unfold internalmodels.minU
      split
      · exact Or.inr (List.mem_cons_self b bs)
      · exact Or.inl rfl
    · exact Or.inr (List.mem_cons_of_mem b h)

theorem foldl_add_eq_add_sum (l : List Int) (a : Int) :
    l.foldl (fun x y => x + y) a = a + l.sum := by
  induction l generalizing a with
  | nil => simp
  | cons b bs ih =>
    rw [List.foldl_cons, ih, List.sum_cons]
    omega

/-- Message with proc and msg latency 0 at write time 10 (C7
counterexample). -/
def ctrMsgZero : Message :=
  { Data := "a", PartitionKey := "p", TimeCreated := 10, TimePulled := 10
    AckFunc := none, Err := none }

/-- Message with proc and msg latency 5 at write time 10 (C7
counterexample). -/
def ctrMsgFive : Message :=
  { Data := "b", PartitionKey := "p", TimeCreated := 5, TimePulled := 5
    AckFunc := none, Err := none }

/-- Counterexample to C7 as stated: at write time 10 the two messages have
proc latencies 0 and 5, whose minimum is 0, yet MinProcLatency comes out as
5 — the stored-min-is-zero guard in the min update (lines 57-59) lets the
later latency overwrite an earlier genuine zero latency, so MinProcLatency
is not the minimum over the messages of (timeOfWrite − TimePulled). -/
theorem claim_C7_counterexample :
    (internalmodels.NewWriteResultWithTime 2 0 10 [ctrMsgZero, ctrMsgFive]).MinProcLatency
      = 5 ∧
    (10 : Int) - ctrMsgZero.TimePulled = 0 ∧
    ¬ ((internalmodels.NewWriteResultWithTime 2 0 10
        [ctrMsgZero, ctrMsgFive]).MinProcLatency ≤ 10 - ctrMsgZero.TimePulled) := by
  refine ⟨by decide, by decide, by decide⟩

/-- C7 (amended): for an empty message list all six latency fields of
NewWriteResultWithTime are zero; for a non-empty list ALL of whose proc and
msg latencies are positive, MaxProcLatency/MinProcLatency are the maximum
and minimum over the messages of (timeOfWrite − TimePulled), AvgProcLatency
is their integer mean (sum divided by count), and likewise the Msg fields
over (timeOfWrite − TimeCreated).  (As the counterexample shows, the claim
as stated fails when a latency equal to zero occurs: the min update's
zero-initial guard can overwrite it.) -/
theorem claim_C7_latency_aggregates (sent failed t : Int) (messages : List Message)
    (R : internalmodels.TargetWriteResult)
    (hR : R = internalmodels.NewWriteResultWithTime sent failed t messages)
    (hproc : ∀ m ∈ messages, 0 < t - m.TimePulled)
    (hmsg : ∀ m ∈ messages, 0 < t - m.TimeCreated) :
    (messages = [] →
      R.MaxProcLatency = 0 ∧ R.MinProcLatency = 0 ∧ R.AvgProcLatency = 0 ∧
      R.MaxMsgLatency = 0 ∧ R.MinMsgLatency = 0 ∧ R.AvgMsgLatency = 0) ∧
    (messages ≠ [] →
      ((∀ m ∈ messages, t - m.TimePulled ≤ R.MaxProcLatency) ∧
        (∃ m ∈ messages, R.MaxProcLatency = t - m.TimePulled)) ∧
      ((∀ m ∈ messages, R.MinProcLatency ≤ t - m.TimePulled) ∧
        (∃ m ∈ messages, R.MinProcLatency = t - m.TimePulled)) ∧
      R.AvgProcLatency =
        (messages.map (fun m => t - m.TimePulled)).sum / (messages.length : Int) ∧
      ((∀ m ∈ messages, t - m.TimeCreated ≤ R.MaxMsgLatency) ∧
        (∃ m ∈ messages, R.MaxMsgLatency = t - m.TimeCreated)) ∧
      ((∀ m ∈ messages, R.MinMsgLatency ≤ t - m.TimeCreated) ∧
        (∃ m ∈ messages, R.MinMsgLatency = t - m.TimeCreated)) ∧
      R.AvgMsgLatency =
        (messages.map (fun m => t - m.TimeCreated)).sum / (messages.length : Int)) := by
  constructor
  · intro hempty
    subst hempty
    subst hR
    exact ⟨rfl, rfl, rfl, rfl, rfl, rfl⟩
  · intro hne
    have hlen : 0 < messages.length := List.length_pos.mpr hne
    have hRfields : R =
        { Sent := sent, Failed := failed
          MaxProcLatency := (messages.map (fun m => t - m.TimePulled)).foldl
            internalmodels.maxU 0
          MinProcLatency := (messages.map (fun m => t - m.TimePulled)).foldl
            internalmodels.minU 0
          AvgProcLatency := internalmodels.GetAverageFromDuration
            ((messages.map (fun m => t - m.TimePulled)).foldl (fun a b => a + b) 0)
            messages.length
          MaxMsgLatency := (messages.map (fun m => t - m.TimeCreated)).foldl
            internalmodels.maxU 0
          MinMsgLatency := (messages.map (fun m => t - m.TimeCreated)).foldl
            internalmodels.minU 0
          AvgMsgLatency := internalmodels.GetAverageFromDuration
            ((messages.map (fun m => t - m.TimeCreated)).foldl (fun a b => a + b) 0)
            messages.length } := by
      rw [hR]
      simp only [internalmodels.NewWriteResultWithTime]
      rw [writeResultFold_char, if_pos hlen]
    clear hR
    subst hRfields
    cases messages with
    | nil => exact absurd rfl hne
    | cons m0 rest =>
      have hposProc : ∀ x ∈ (m0 :: rest).map (fun m => t - m.TimePulled), 0 < x := by
        intro x hx
        rcases List.mem_map.mp hx with ⟨m, hm, rfl⟩
        exact hproc m hm
      have hposMsg : ∀ x ∈ (m0 :: rest).map (fun m => t - m.TimeCreated), 0 < x := by
        intro x hx
        rcases List.mem_map.mp hx with ⟨m, hm, rfl⟩
        exact hmsg m hm
      refine ⟨⟨?_, ?_⟩, ⟨?_, ?_⟩, ?_, ⟨?_, ?_⟩, ⟨?_, ?_⟩, ?_⟩
      · intro m hm
        exact mem_le_foldl_maxU _ 0 _ (List.mem_map_of_mem _ hm)
      · rcases foldl_maxU_eq_init_or_mem ((m0 :: rest).map (fun m => t - m.TimePulled)) 0
          with h | h
        · exfalso
          have h0 := hproc m0 (List.mem_cons_self m0 rest)
          have hle := mem_le_foldl_maxU ((m0 :: rest).map (fun m => t - m.TimePulled)) 0
            (t - m0.TimePulled)
            (List.mem_map_of_mem _ (List.mem_cons_self m0 rest))
          rw [h] at hle
          omega
        · rcases List.mem_map.mp h with ⟨m, hm, hx⟩
          exact ⟨m, hm, hx.symm⟩
      · intro m hm
        have hstart : ((m0 :: rest).map (fun m => t - m.TimePulled)).foldl
            internalmodels.minU 0 =
            (rest.map (fun m => t - m.TimePulled)).foldl internalmodels.minU
              (t - m0.TimePulled) := by
          simp [internalmodels.minU]
        rw [hstart]
        rcases List.mem_cons.mp hm with rfl | hmem
        · exact foldl_minU_le_init _ _ (hproc m (List.mem_cons_self m rest))
            (fun y hy => hposProc y (List.mem_cons_of_mem _ hy))
        · exact foldl_minU_le_mem _ _ _ (hproc m0 (List.mem_cons_self m0 rest))
            (fun y hy => hposProc y (List.mem_cons_of_mem _ hy))
            (List.mem_map_of_mem _ hmem)
      · have hstart : ((m0 :: rest).map (fun m => t - m.TimePulled)).foldl
            internalmodels.minU 0 =
            (rest.map (fun m => t - m.TimePulled)).foldl internalmodels.minU
              (t - m0.TimePulled) := by
          simp [internalmodels.minU]
        rw [hstart]
        rcases foldl_minU_eq_init_or_mem (rest.map (fun m => t - m.TimePulled))
            (t - m0.TimePulled) with h | h
        · exact ⟨m0, List.mem_cons_self m0 rest, h⟩
        · rcases List.mem_map.mp h with ⟨m, hm, hx⟩
          exact ⟨m, List.mem_cons_of_mem m0 hm, hx.symm⟩
      · unfold internalmodels.GetAverageFromDuration
        rw [if_pos (by exact_mod_cast hlen)]
        simp [foldl_add_eq_add_sum]
      · intro m hm
        exact mem_le_foldl_maxU _ 0 _ (List.mem_map_of_mem _ hm)
      · rcases foldl_maxU_eq_init_or_mem ((m0 :: rest).map (fun m => t - m.TimeCreated)) 0
          with h | h
        · exfalso
          have h0 := hmsg m0 (List.mem_cons_self m0 rest)
          have hle := mem_le_foldl_maxU ((m0 :: rest).map (fun m => t - m.TimeCreated)) 0
            (t - m0.TimeCreated)
            (List.mem_map_of_mem _ (List.mem_cons_self m0 rest))
          rw [h] at hle
          omega
        · rcases List.mem_map.mp h with ⟨m, hm, hx⟩
          exact ⟨m, hm, hx.symm⟩
      · intro m hm
        have hstart : ((m0 :: rest).map (fun m => t - m.TimeCreated)).foldl
            internalmodels.minU 0 =
            (rest.map (fun m => t - m.TimeCreated)).foldl internalmodels.minU
              (t - m0.TimeCreated) := by
          simp [internalmodels.minU]
        rw [hstart]
        rcases List.mem_cons.mp hm with rfl | hmem
        · exact foldl_minU_le_init _ _ (hmsg m (List.mem_cons_self m rest))
            (fun y hy => hposMsg y (List.mem_cons_of_mem _ hy))
        · exact foldl_minU_le_mem _ _ _ (hmsg m0 (List.mem_cons_self m0 rest))
            (fun y hy => hposMsg y (List.mem_cons_of_mem _ hy))
            (List.mem_map_of_mem _ hmem)
      · have hstart : ((m0 :: rest).map (fun m => t - m.TimeCreated)).foldl
            internalmodels.minU 0 =
            (rest.map (fun m => t - m.TimeCreated)).foldl internalmodels.minU
              (t - m0.TimeCreated) := by
          simp [internalmodels.minU]
        rw [hstart]
        rcases foldl_minU_eq_init_or_mem (rest.map (fun m => t - m.TimeCreated))
            (t - m0.TimeCreated) with h | h
        · exact ⟨m0, List.mem_cons_self m0 rest, h⟩
        · rcases List.mem_map.mp h with ⟨m, hm, hx⟩
          exact ⟨m, List.mem_cons_of_mem m0 hm, hx.symm⟩
      · unfold internalmodels.GetAverageFromDuration
        rw [if_pos (by exact_mod_cast hlen)]
        simp [foldl_add_eq_add_sum]

/-- Message with proc latency 3 and msg latency 6 at write time 10 (C7
witness). -/
def wmsgLat : Message :=
  { Data := "c", PartitionKey := "p", TimeCreated := 4, TimePulled := 7
    AckFunc := none, Err := none }

/-- Witness for C7 (amended): the positivity hypotheses hold for a singleton
batch at write time 10, and AvgProcLatency equals the integer mean. -/
theorem claim_C7_witness :
    (∀ m ∈ [wmsgLat], 0 < (10 : Int) - m.TimePulled) ∧
    (∀ m ∈ [wmsgLat], 0 < (10 : Int) - m.TimeCreated) ∧
    (internalmodels.NewWriteResultWithTime 1 0 10 [wmsgLat]).AvgProcLatency =
      ([wmsgLat].map (fun m => (10 : Int) - m.TimePulled)).sum /
        (([wmsgLat].length : Nat) : Int) := by
  refine ⟨by decide, by decide, ?_⟩
  have h := (claim_C7_latency_aggregates 1 0 10 [wmsgLat]
      (internalmodels.NewWriteResultWithTime 1 0 10 [wmsgLat]) rfl
      (by decide) (by decide)).2 (by simp)
  exact h.2.2.1

end Snowbridge
